import Mathlib

/-!
Verification of the meter-and-display state engine of `jack_meter.c`
(Cuimhne_jackmeter).  C `float` arithmetic is modelled over the exact
rationals `ℚ`; every constant appearing in the source (0.25, 0.5, 2.5,
0.75, 7.5, 1.5, 15, 2, 30, 50, 100, 1.6) is a dyadic or decimal
rational written exactly.  C `int` and `time_t` are modelled as `ℤ`;
the C cast `(int)` of a float truncates toward zero, modelled by
`ratTrunc`.
-/

namespace JackMeter

/-- C cast `(int) q`: truncation toward zero (floor for nonnegative
values, ceiling for negative ones). -/
def ratTrunc (q : ℚ) : ℤ :=
  if 0 ≤ q then ⌊q⌋ else ⌈q⌉

/-- `CONSOLE_WIDTH` from `jack_meter.c`. -/
def CONSOLE_WIDTH : ℤ := 20

/-- `DISPLAY_WIDTH` from `jack_meter.c`: `CONSOLE_WIDTH + 6`. -/
def DISPLAY_WIDTH : ℤ := CONSOLE_WIDTH + 6

/-- The seven-band IEC deflection percentage computed by the body of
`iec_scale` in `jack_meter.c` (the local variable `def`). -/
def iec_def (db : ℚ) : ℚ :=
  if db < -70 then 0
  else if db < -60 then (db + 70) * (25/100)
  else if db < -50 then (db + 60) * (5/10) + 25/10
  else if db < -40 then (db + 50) * (75/100) + 75/10
  else if db < -30 then (db + 40) * (15/10) + 15
  else if db < -20 then (db + 30) * 2 + 30
  else if db < 0 then (db + 20) * (25/10) + 50
  else 100

/-- `iec_scale(db, size)` from `jack_meter.c`:
`(int) ((def / 100.0f) * ((float) size))`. -/
def iec_scale (db : ℚ) (size : ℤ) : ℤ :=
  ratTrunc (iec_def db / 100 * (size : ℚ))

/-- `decay_len` as computed in `main` of `jack_meter.c`:
`(int) (1.6f / (1.0f / update_rate))`. -/
def decay_len_of (update_rate : ℤ) : ℤ :=
  ratTrunc ((16/10 : ℚ) / (1 / (update_rate : ℚ)))

/-- `struct channel_info_t` from `jack_meter.c` (the `input_port` JACK
handle is modelled in `process_peak_channel` by an `Option` input). -/
structure ChannelInfo where
  channel : ℤ
  dpeak : ℤ
  dtime : ℤ
  peak : ℚ
  last_peak : ℚ
  db : ℚ
  deriving DecidableEq

/-- The state update performed by `display_meter` in `jack_meter.c`
(global `decay_len` passed as `dl`):
`size = iec_scale(db, CONSOLE_WIDTH);`
`if (size > dpeak) { dpeak = size; dtime = 0; }`
`else if (dtime++ > decay_len) { dpeak = size; }`
(note the post-increment: `dtime` is compared, then incremented, in
both `else` outcomes). -/
def display_meter_step (dl : ℤ) (info : ChannelInfo) : ChannelInfo :=
  if iec_scale info.db CONSOLE_WIDTH > info.dpeak then
    { info with dpeak := iec_scale info.db CONSOLE_WIDTH, dtime := 0 }
  else if info.dtime > dl then
    { info with dpeak := iec_scale info.db CONSOLE_WIDTH, dtime := info.dtime + 1 }
  else
    { info with dtime := info.dtime + 1 }

/-- A run of display ticks: each tick sets the channel's `db` input
(as `update_display` does before calling `display_meter`) and applies
`display_meter_step`. -/
def display_meter_run (dl : ℤ) (inputs : List ℚ) (info : ChannelInfo) :
    ChannelInfo :=
  inputs.foldl (fun i d => display_meter_step dl { i with db := d }) info

/-- The per-channel work of `process_peak` in `jack_meter.c`.  The JACK
buffer is modelled as `Option (List ℚ)`: `none` when the channel's
`input_port` is not registered (the channel is skipped), `some samples`
otherwise.  For each sample the code takes `fabs(in[i])` and overwrites
`peak` when strictly greater. -/
def process_peak_channel (buf : Option (List ℚ)) (info : ChannelInfo) :
    ChannelInfo :=
  match buf with
  | none => info
  | some samples =>
      { info with
        peak := samples.foldl (fun p s => if |s| > p then |s| else p) info.peak }

/-- `struct display_info_t` from `jack_meter.c` (C `int` and `time_t`
fields as `ℤ`, the float `bias` as `ℚ`). -/
structure DisplayInfo where
  recording : ℤ
  xrun_count : ℤ
  displaying : ℤ
  start_time : ℤ
  elapsed_seconds : ℤ
  channels_installed : ℤ
  channels_displaying : ℤ
  decibels_mode : ℤ
  update_rate : ℤ
  bias : ℚ
  xrun_len : ℤ
  deriving DecidableEq

/-- The per-channel drain in `update_display` of `jack_meter.c`:
`last_peak = peak; peak = 0.0f; db = 20*log10f(last_peak * bias)`.
`log10f` is real-valued, so it is passed as an arbitrary function
parameter `lg`; the claims proved here do not depend on its values. -/
def drain_channel (lg : ℚ → ℚ) (bias : ℚ) (info : ChannelInfo) :
    ChannelInfo :=
  { info with
    last_peak := info.peak
    peak := 0
    db := 20 * lg (info.peak * bias) }

/-- One visible channel's full update in `update_display`: drain, then
render via `display_db` (no channel-state change) in decibels mode, or
via `display_meter` (peak-hold state change) otherwise. -/
def update_display_channel (dl : ℤ) (lg : ℚ → ℚ) (di : DisplayInfo)
    (info : ChannelInfo) : ChannelInfo :=
  if di.decibels_mode = 1 then drain_channel lg di.bias info
  else display_meter_step dl (drain_channel lg di.bias info)

/-- `MAX_CHANNELS` from `jack_meter.c`: the fixed size of the global
`channel_info` array. -/
def MAX_CHANNELS : ℕ := 2

/-- The channel loop of `update_display` in `jack_meter.c`: when any
channels are visible, each entry of the `channel_info` array with
index `< channels_displaying` is drained and rendered; the others are
untouched.  (Each loop iteration reads and writes only
`channel_info[channel]`, so the loop is this pointwise update.) -/
def update_display (dl : ℤ) (lg : ℚ → ℚ) (di : DisplayInfo)
    (chans : Fin MAX_CHANNELS → ChannelInfo) :
    Fin MAX_CHANNELS → ChannelInfo :=
  if di.channels_displaying ≠ 0 then
    fun i =>
      if ((i : ℕ) : ℤ) < di.channels_displaying then
        update_display_channel dl lg di (chans i)
      else chans i
  else chans

/-- The `ESC` byte `0x1b` from `jack_meter.c`. -/
def ESC : Char := Char.ofNat 27

/-- `CLEAR_TO_END` (`'0'`) from `jack_meter.c`. -/
def CLEAR_TO_END : Char := '0'

/-- `CLEAR_ALL` (`'2'`) from `jack_meter.c`. -/
def CLEAR_ALL : Char := '2'

/-- The 6-byte cursor-positioning prefix written by `configure_buffer`
in `jack_meter.c`: `ESC [ row ; 0 H`. -/
def configure_prefix (row : Char) : List Char :=
  [ESC, '[', row, ';', '0', 'H']

/-- The bytes written by `clear_display` in `jack_meter.c`: nothing
when no channels are displaying; otherwise the row-3 positioning
prefix followed by `CLEAR_SCREEN` (`ESC [ 0 J`) when exactly two
channels are displaying, and `CLEAR_LINE` (`ESC [ 2 K`) otherwise. -/
def clear_display_bytes (channels_displaying : ℤ) : List Char :=
  if channels_displaying > 0 then
    configure_prefix '3' ++
      (if channels_displaying = 2 then [ESC, '[', CLEAR_TO_END, 'J']
       else [ESC, '[', CLEAR_ALL, 'K'])
  else []

/-- The bytes written by `clear_recording_status` in `jack_meter.c`:
the row-2 positioning prefix followed by `CLEAR_LINE` (`ESC [ 2 K`). -/
def clear_recording_status_bytes : List Char :=
  configure_prefix '2' ++ [ESC, '[', CLEAR_ALL, 'K']

/-- The display calls `check_cmd` can make, in order.  `clearDisplay`
records the visible-channel count at the time of the call (its byte
output is `clear_display_bytes` of that count). -/
inductive DisplayAction where
  | clearDisplay (channels_displaying : ℤ)
  | clearRecordingStatus
  | displayXrun
  | displayTime
  deriving DecidableEq

/-- The outcome of the non-blocking `fgetc`/`ferror` pair at the top of
`check_cmd`: a read error (`ferror` nonzero), no data available
(`fgetc` returns `EOF`), or a command byte. -/
inductive CmdInput where
  | readError
  | noData
  | byte (c : Char)
  deriving DecidableEq

/-- `check_cmd` from `jack_meter.c`.  `now` models the wall clock read
by `time(&display_info->start_time)`.  Returns the updated state, the
ordered list of display calls made, and the C return value (0 stops
the main loop, 1 continues it). -/
def check_cmd (now : ℤ) (inp : CmdInput) (di : DisplayInfo) :
    DisplayInfo × List DisplayAction × ℤ :=
  match inp with
  | .readError => (di, [], 1)
  | .noData => (di, [], 1)
  | .byte c =>
    if c = '0' then
      ({ di with channels_displaying := 0 },
        [.clearDisplay di.channels_displaying], 1)
    else if c = '1' then
      ({ di with channels_displaying := 1 },
        [.clearDisplay di.channels_displaying], 1)
    else if c = '2' then
      ({ di with channels_displaying := 2 },
        [.clearDisplay di.channels_displaying], 1)
    else if c = 'r' then
      ({ di with recording := 0 }, [.clearRecordingStatus], 1)
    else if c = 'R' then
      ({ di with
          recording := 1
          start_time := now
          elapsed_seconds := 0
          xrun_count := 0 },
        [.clearRecordingStatus, .displayXrun, .displayTime], 1)
    else if c = 'x' then
      (di, (if di.recording ≠ 0 then [.clearRecordingStatus] else []) ++
        [.clearDisplay di.channels_displaying], 0)
    else (di, [], 1)

theorem ratTrunc_of_nonneg {q : ℚ} (h : 0 ≤ q) : ratTrunc q = ⌊q⌋ := by
  simp [ratTrunc, h]

theorem iec_def_nonneg (db : ℚ) : 0 ≤ iec_def db := by
  unfold iec_def
  split_ifs <;> linarith

theorem iec_def_le_100 (db : ℚ) : iec_def db ≤ 100 := by
  unfold iec_def
  split_ifs <;> linarith

set_option maxHeartbeats 1600000 in
theorem iec_def_mono {db1 db2 : ℚ} (h : db1 ≤ db2) :
    iec_def db1 ≤ iec_def db2 := by
  unfold iec_def
  split_ifs <;> linarith

theorem iec_scale_mono {db1 db2 : ℚ} {W : ℤ} (hW : 0 ≤ W) (h : db1 ≤ db2) :
    iec_scale db1 W ≤ iec_scale db2 W := by
  have hW' : (0 : ℚ) ≤ (W : ℚ) := by exact_mod_cast hW
  have p1 : (0 : ℚ) ≤ iec_def db1 / 100 * (W : ℚ) :=
    mul_nonneg (div_nonneg (iec_def_nonneg db1) (by norm_num)) hW'
  have p2 : (0 : ℚ) ≤ iec_def db2 / 100 * (W : ℚ) :=
    mul_nonneg (div_nonneg (iec_def_nonneg db2) (by norm_num)) hW'
  rw [iec_scale, iec_scale, ratTrunc_of_nonneg p1, ratTrunc_of_nonneg p2]
  apply Int.floor_le_floor
  have := iec_def_mono h
  gcongr

theorem iec_def_of_nonneg {db : ℚ} (h : 0 ≤ db) : iec_def db = 100 := by
  unfold iec_def
  split_ifs <;> first | rfl | linarith

theorem iec_def_of_lt_neg70 {db : ℚ} (h : db < -70) : iec_def db = 0 := by
  unfold iec_def
  split_ifs <;> first | rfl | linarith

theorem iec_scale_of_nonneg {db : ℚ} {W : ℤ} (h : 0 ≤ db) (hW : 0 ≤ W) :
    iec_scale db W = W := by
  simp only [iec_scale, iec_def_of_nonneg h]
  rw [show (100 : ℚ) / 100 * (W : ℚ) = (W : ℚ) by ring]
  rw [ratTrunc_of_nonneg (by exact_mod_cast hW)]
  exact Int.floor_intCast W

theorem iec_scale_of_lt_neg70 {db : ℚ} (W : ℤ) (h : db < -70) :
    iec_scale db W = 0 := by
  simp only [iec_scale, iec_def_of_lt_neg70 h]
  norm_num [ratTrunc]

theorem display_meter_step_dtime_le (dl : ℤ) (info : ChannelInfo)
    (h0 : 0 ≤ info.dtime) :
    (display_meter_step dl info).dtime ≤ info.dtime + 1 ∧
    0 ≤ (display_meter_step dl info).dtime := by
  unfold display_meter_step
  split_ifs <;> simp <;> omega

theorem display_meter_step_dpeak_ge {dl : ℤ} {info : ChannelInfo}
    (h : info.dtime ≤ dl) :
    info.dpeak ≤ (display_meter_step dl info).dpeak := by
  unfold display_meter_step
  split_ifs with h1 h2
  · simpa using le_of_lt h1
  · omega
  · simp

theorem display_meter_run_dpeak_ge {dl : ℤ} (inputs : List ℚ)
    (info : ChannelInfo) (h0 : 0 ≤ info.dtime)
    (h : info.dtime + inputs.length ≤ dl + 1) :
    info.dpeak ≤ (display_meter_run dl inputs info).dpeak := by
  induction inputs generalizing info with
  | nil => simp [display_meter_run]
  | cons d rest ih =>
    simp only [display_meter_run, List.foldl_cons] at *
    set i1 := display_meter_step dl { info with db := d } with hi1
    have hstep : info.dpeak ≤ i1.dpeak := by
      apply display_meter_step_dpeak_ge
      show info.dtime ≤ dl
      simp only [List.length_cons] at h
      push_cast at h
      omega
    have hb := display_meter_step_dtime_le dl { info with db := d } h0
    refine le_trans hstep (ih i1 hb.2 ?_)
    have h1 : i1.dtime ≤ info.dtime + 1 := hb.1
    simp only [List.length_cons] at h
    push_cast at h ⊢
    omega

theorem peak_foldl_ge (samples : List ℚ) (p : ℚ) :
    p ≤ samples.foldl (fun q s => if |s| > q then |s| else q) p := by
  induction samples generalizing p with
  | nil => simp
  | cons s rest ih =>
    simp only [List.foldl_cons]
    refine le_trans ?_ (ih _)
    split_ifs with h
    · exact le_of_lt h
    · exact le_rfl

theorem process_peak_channel_peak_ge (buf : Option (List ℚ))
    (info : ChannelInfo) : info.peak ≤ (process_peak_channel buf info).peak := by
  cases buf with
  | none => exact le_rfl
  | some samples => exact peak_foldl_ge samples info.peak

/-- **C1.** For every width `W ≥ 0`: for every `db ≥ 0`,
`iec_scale db W = W`, and for every `db < -70`, `iec_scale db W = 0`. -/
theorem C1_iec_scale_endpoints (W : ℤ) (hW : 0 ≤ W) :
    (∀ db : ℚ, 0 ≤ db → iec_scale db W = W) ∧
    (∀ db : ℚ, db < -70 → iec_scale db W = 0) :=
  ⟨fun _ hdb => iec_scale_of_nonneg hdb hW,
    fun _ hdb => iec_scale_of_lt_neg70 W hdb⟩

/-- Witness for C1 at `W = 20`, `db = 3` and `db = -71`. -/
theorem C1_iec_scale_endpoints_witness :
    (0 : ℤ) ≤ 20 ∧ iec_scale 3 20 = 20 ∧ iec_scale (-71) 20 = 0 := by
  refine ⟨by norm_num, ?_, ?_⟩
  · exact (C1_iec_scale_endpoints 20 (by norm_num)).1 3 (by norm_num)
  · exact (C1_iec_scale_endpoints 20 (by norm_num)).2 (-71) (by norm_num)

/-- **C2.** For every fixed width `W ≥ 0`, `iec_scale` is monotonically
non-decreasing in `db`; and at each band boundary (-70, -60, -50, -40,
-30, -20, 0) the formula of the band below the boundary, evaluated at
the boundary, agrees exactly (hence within one unit of rounding) with
the value the function takes there via the band above. -/
theorem C2_iec_scale_mono_and_boundaries (W : ℤ) (hW : 0 ≤ W) :
    (∀ db1 db2 : ℚ, db1 ≤ db2 → iec_scale db1 W ≤ iec_scale db2 W) ∧
    iec_def (-70) = 0 ∧
    iec_def (-60) = ((-60 : ℚ) + 70) * (25/100) ∧
    iec_def (-50) = ((-50 : ℚ) + 60) * (5/10) + 25/10 ∧
    iec_def (-40) = ((-40 : ℚ) + 50) * (75/100) + 75/10 ∧
    iec_def (-30) = ((-30 : ℚ) + 40) * (15/10) + 15 ∧
    iec_def (-20) = ((-20 : ℚ) + 30) * 2 + 30 ∧
    iec_def 0 = ((0 : ℚ) + 20) * (25/10) + 50 := by
  refine ⟨fun db1 db2 h => iec_scale_mono hW h, ?_, ?_, ?_, ?_, ?_, ?_, ?_⟩
  all_goals norm_num [iec_def]

/-- Witness for C2 at `W = 20`, `db1 = -65`, `db2 = -5`. -/
theorem C2_iec_scale_mono_and_boundaries_witness :
    (0 : ℤ) ≤ 20 ∧ iec_scale (-65) 20 ≤ iec_scale (-5) 20 :=
  ⟨by norm_num,
    (C2_iec_scale_mono_and_boundaries 20 (by norm_num)).1 (-65) (-5) (by norm_num)⟩

/-- **C3 counterexample.** When the hold has expired and `dpeak` falls
(state: `dpeak = 5`, `dtime = 13 > decay_len = 12`, input `db = -100`
giving new position 0), the code does NOT reset the counter: `dtime`
becomes 14 (the post-increment `dtime++`), not 0. -/
theorem C3_counterexample_dtime_not_reset :
    (display_meter_step 12 ⟨0, 5, 13, 0, 0, -100⟩).dpeak <
      (⟨0, 5, 13, 0, 0, -100⟩ : ChannelInfo).dpeak ∧
    (display_meter_step 12 ⟨0, 5, 13, 0, 0, -100⟩).dtime ≠ 0 := by
  have h : iec_scale (-100 : ℚ) CONSOLE_WIDTH = 0 :=
    iec_scale_of_lt_neg70 _ (by norm_num)
  unfold display_meter_step
  rw [h]
  norm_num

/-- **C3 (amended).** Peak-hold step relation: (1) if the newly
computed position exceeds `dpeak`, then `dpeak` snaps up to it on that
same tick and `dtime` resets to 0; (2) once `dpeak` is set with
`dtime = 0` at tick T, it does not decrease during the next
`decay_len + 1` ticks (so not before tick `T + hold_ticks`); (3) when
the hold has expired (`dtime > decay_len`) and the new position does
not exceed `dpeak`, `dpeak` falls to the new position but the counter
is NOT reset: it is post-incremented to `dtime + 1`. -/
theorem C3_peak_hold_step (dl : ℤ) (info : ChannelInfo) :
    (iec_scale info.db CONSOLE_WIDTH > info.dpeak →
      (display_meter_step dl info).dpeak = iec_scale info.db CONSOLE_WIDTH ∧
      (display_meter_step dl info).dtime = 0) ∧
    (∀ inputs : List ℚ, info.dtime = 0 → (inputs.length : ℤ) ≤ dl + 1 →
      info.dpeak ≤ (display_meter_run dl inputs info).dpeak) ∧
    (¬ iec_scale info.db CONSOLE_WIDTH > info.dpeak → info.dtime > dl →
      (display_meter_step dl info).dpeak = iec_scale info.db CONSOLE_WIDTH ∧
      (display_meter_step dl info).dtime = info.dtime + 1) := by
  refine ⟨fun h => ?_, fun inputs h0 hlen => ?_, fun h1 h2 => ?_⟩
  · unfold display_meter_step
    rw [if_pos h]
    exact ⟨rfl, rfl⟩
  · exact display_meter_run_dpeak_ge inputs info (by omega) (by omega)
  · unfold display_meter_step
    rw [if_neg h1, if_pos h2]
    exact ⟨rfl, rfl⟩

/-- Witness for C3 (amended), each part applied at a concrete state. -/
theorem C3_peak_hold_step_witness :
    ((display_meter_step 12 ⟨0, 5, 3, 0, 0, 0⟩).dpeak =
        iec_scale (0 : ℚ) CONSOLE_WIDTH ∧
      (display_meter_step 12 ⟨0, 5, 3, 0, 0, 0⟩).dtime = 0) ∧
    (⟨0, 5, 0, 0, 0, -100⟩ : ChannelInfo).dpeak ≤
      (display_meter_run 12 [-100, -100] ⟨0, 5, 0, 0, 0, -100⟩).dpeak ∧
    ((display_meter_step 12 ⟨0, 5, 13, 0, 0, -100⟩).dpeak =
        iec_scale (-100 : ℚ) CONSOLE_WIDTH ∧
      (display_meter_step 12 ⟨0, 5, 13, 0, 0, -100⟩).dtime =
        (⟨0, 5, 13, 0, 0, -100⟩ : ChannelInfo).dtime + 1) := by
  refine ⟨(C3_peak_hold_step 12 ⟨0, 5, 3, 0, 0, 0⟩).1 ?_,
    (C3_peak_hold_step 12 ⟨0, 5, 0, 0, 0, -100⟩).2.1 [-100, -100] rfl
      (by norm_num),
    (C3_peak_hold_step 12 ⟨0, 5, 13, 0, 0, -100⟩).2.2 ?_ ?_⟩
  · rw [show iec_scale (0 : ℚ) CONSOLE_WIDTH = CONSOLE_WIDTH from
      iec_scale_of_nonneg le_rfl (by norm_num [CONSOLE_WIDTH])]
    norm_num [CONSOLE_WIDTH]
  · rw [show iec_scale (-100 : ℚ) CONSOLE_WIDTH = 0 from
      iec_scale_of_lt_neg70 _ (by norm_num)]
    norm_num
  · norm_num

/-- **C9.** With `update_rate = 8`, `decay_len = (int)(1.6 / (1/8)) = 12`. -/
theorem C9_decay_len_at_8 : decay_len_of 8 = 12 := by
  have h : ((16/10 : ℚ) / (1 / ((8 : ℤ) : ℚ))) = 64/5 := by norm_num
  rw [decay_len_of, h, ratTrunc_of_nonneg (by norm_num)]
  rw [Int.floor_eq_iff]
  norm_num

/-- **C10.** At full-scale input (`db = 0`, so `db ≥ 0`) the computed
size is `CONSOLE_WIDTH = 20`, `display_meter` sets `dpeak = 20`, and
the claimed strict bound `dpeak < CONSOLE_WIDTH` fails: the write
`display_text[dpeak]` hits index 20 of the 20-byte content region,
one byte past the end of the 26-byte line buffer. -/
theorem C10_full_scale_dpeak_reaches_console_width :
    iec_scale (0 : ℚ) CONSOLE_WIDTH = CONSOLE_WIDTH ∧
    (display_meter_step 12 ⟨0, 0, 0, 0, 0, 0⟩).dpeak = CONSOLE_WIDTH ∧
    ¬ (display_meter_step 12 ⟨0, 0, 0, 0, 0, 0⟩).dpeak < CONSOLE_WIDTH := by
  have h : iec_scale (0 : ℚ) CONSOLE_WIDTH = CONSOLE_WIDTH :=
    iec_scale_of_nonneg le_rfl (by norm_num [CONSOLE_WIDTH])
  refine ⟨h, ?_, ?_⟩ <;>
    · unfold display_meter_step
      rw [h]
      norm_num [CONSOLE_WIDTH]

theorem update_display_channel_drains (dl : ℤ) (lg : ℚ → ℚ)
    (di : DisplayInfo) (info : ChannelInfo) :
    (update_display_channel dl lg di info).last_peak = info.peak ∧
    (update_display_channel dl lg di info).peak = 0 := by
  unfold update_display_channel
  split_ifs
  · simp [drain_channel]
  · constructor <;>
      (unfold display_meter_step; split_ifs <;> simp [drain_channel])

/-- **C4.** Drain invariant: one `update_display` tick with channels
visible sets, for every visible channel, `last_peak` to the value
`peak` held at the start of the tick and resets `peak` to exactly 0
(also when no samples arrived in the interval); the sampler side
(`process_peak`) only ever increases `peak` and never resets it. -/
theorem C4_drain_invariant (dl : ℤ) (lg : ℚ → ℚ) (di : DisplayInfo)
    (chans : Fin MAX_CHANNELS → ChannelInfo) (i : Fin MAX_CHANNELS)
    (hvis : ((i : ℕ) : ℤ) < di.channels_displaying)
    (buf : Option (List ℚ)) (inf2 : ChannelInfo) :
    (update_display dl lg di chans i).last_peak = (chans i).peak ∧
    (update_display dl lg di chans i).peak = 0 ∧
    inf2.peak ≤ (process_peak_channel buf inf2).peak := by
  have hi0 : (0 : ℤ) ≤ ((i : ℕ) : ℤ) := Int.natCast_nonneg _
  have hcd : di.channels_displaying ≠ 0 := by omega
  have he : update_display dl lg di chans i =
      update_display_channel dl lg di (chans i) := by
    rw [update_display, if_pos hcd]
    exact if_pos hvis
  rw [he]
  exact ⟨(update_display_channel_drains dl lg di (chans i)).1,
    (update_display_channel_drains dl lg di (chans i)).2,
    process_peak_channel_peak_ge buf inf2⟩

/-- Witness for C4: one visible channel holding `peak = 3/2`, and a
sampler call delivering samples `[1/2, -3]` on a channel at peak 1. -/
theorem C4_drain_invariant_witness :
    (update_display 12 (fun _ => 0) ⟨0, 0, 0, 0, 0, 2, 1, 0, 8, 1, 0⟩
        (fun _ => ⟨0, 0, 0, 3/2, 0, 0⟩)
        ⟨0, by norm_num [MAX_CHANNELS]⟩).last_peak =
      ((fun _ => (⟨0, 0, 0, 3/2, 0, 0⟩ : ChannelInfo))
        (⟨0, by norm_num [MAX_CHANNELS]⟩ : Fin MAX_CHANNELS)).peak ∧
    (update_display 12 (fun _ => 0) ⟨0, 0, 0, 0, 0, 2, 1, 0, 8, 1, 0⟩
        (fun _ => ⟨0, 0, 0, 3/2, 0, 0⟩)
        ⟨0, by norm_num [MAX_CHANNELS]⟩).peak = 0 ∧
    (⟨0, 0, 0, 1, 0, 0⟩ : ChannelInfo).peak ≤
      (process_peak_channel (some [1/2, -3]) ⟨0, 0, 0, 1, 0, 0⟩).peak :=
  C4_drain_invariant 12 (fun _ => 0) ⟨0, 0, 0, 0, 0, 2, 1, 0, 8, 1, 0⟩
    (fun _ => ⟨0, 0, 0, 3/2, 0, 0⟩) ⟨0, by norm_num [MAX_CHANNELS]⟩
    (by norm_num) (some [1/2, -3]) ⟨0, 0, 0, 1, 0, 0⟩

/-- **C5 counterexample.** Consuming `'R'` does not reset `start_time`
to 0: the code executes `time(&display_info->start_time)`, so at
wall-clock time 5 it sets `start_time = 5 ≠ 0`. -/
theorem C5_counterexample_start_time_not_zero :
    ((check_cmd 5 (CmdInput.byte 'R')
        ⟨0, 7, 0, 3, 9, 2, 2, 0, 8, 1, 0⟩).1).start_time = 5 ∧
    ¬ ((check_cmd 5 (CmdInput.byte 'R')
        ⟨0, 7, 0, 3, 9, 2, 2, 0, 8, 1, 0⟩).1).start_time = 0 := by
  constructor <;> decide

/-- **C5 (amended).** Consuming `'R'` sets `recording` to true, sets
`start_time` to the current wall-clock time, and resets
`elapsed_seconds` and the displayed overrun count `xrun_count` to 0;
subsequently consuming `'r'` sets `recording` to false; so the
sequence `"R"` then `"r"` yields recording true after the first
command and false after the second. -/
theorem C5_command_R_then_r (now1 now2 : ℤ) (di : DisplayInfo) :
    ((check_cmd now1 (CmdInput.byte 'R') di).1).recording = 1 ∧
    ((check_cmd now1 (CmdInput.byte 'R') di).1).start_time = now1 ∧
    ((check_cmd now1 (CmdInput.byte 'R') di).1).elapsed_seconds = 0 ∧
    ((check_cmd now1 (CmdInput.byte 'R') di).1).xrun_count = 0 ∧
    ((check_cmd now2 (CmdInput.byte 'r')
        (check_cmd now1 (CmdInput.byte 'R') di).1).1).recording = 0 := by
  simp [check_cmd]

/-- **C6.** For every command byte not in `{'0','1','2','r','R','x'}`,
and likewise when no data is available or the read errors, `check_cmd`
leaves the whole display-session state unchanged, makes no display
call, and returns the nonzero value 1 (the main loop continues). -/
theorem C6_unrecognized_no_change (now : ℤ) (di : DisplayInfo)
    (inp : CmdInput)
    (h : ∀ c : Char, inp = CmdInput.byte c →
      c ≠ '0' ∧ c ≠ '1' ∧ c ≠ '2' ∧ c ≠ 'r' ∧ c ≠ 'R' ∧ c ≠ 'x') :
    check_cmd now inp di = (di, [], 1) ∧
    (check_cmd now inp di).2.2 ≠ 0 := by
  have he : check_cmd now inp di = (di, [], 1) := by
    cases inp with
    | readError => rfl
    | noData => rfl
    | byte c =>
      obtain ⟨h0, h1, h2, hr, hR, hx⟩ := h c rfl
      simp [check_cmd, h0, h1, h2, hr, hR, hx]
  rw [he]
  exact ⟨rfl, by simp⟩

/-- Witness for C6 at the unrecognized byte `'z'`. -/
theorem C6_unrecognized_no_change_witness :
    check_cmd 0 (CmdInput.byte 'z') ⟨0, 0, 0, 0, 0, 2, 2, 0, 8, 1, 0⟩ =
      (⟨0, 0, 0, 0, 0, 2, 2, 0, 8, 1, 0⟩, [], 1) ∧
    (check_cmd 0 (CmdInput.byte 'z')
      ⟨0, 0, 0, 0, 0, 2, 2, 0, 8, 1, 0⟩).2.2 ≠ 0 :=
  C6_unrecognized_no_change 0 ⟨0, 0, 0, 0, 0, 2, 2, 0, 8, 1, 0⟩
    (CmdInput.byte 'z') (by intro c hc; cases hc; decide)

/-- **C7 counterexample.** With 0 channels visible, `clear_display`
emits nothing at all (the body is guarded by
`channels_displaying > 0`), not the single-line clear escape the claim
requires for every count other than 2. -/
theorem C7_counterexample_zero_channels_no_output :
    clear_display_bytes 0 = [] ∧
    clear_display_bytes 0 ≠
      configure_prefix '3' ++ [ESC, '[', CLEAR_ALL, 'K'] := by
  constructor
  · rfl
  · decide

/-- **C7 (amended).** `clear_display` emits the clear-screen escape
(`ESC [ 0 J`, after the row-3 positioning prefix) when exactly two
channels are visible, the single-line clear escape (`ESC [ 2 K`) for
every POSITIVE visible-channel count other than 2, and nothing at all
when no channels are visible. -/
theorem C7_clear_display_amended (n : ℤ) :
    (n = 2 → clear_display_bytes n =
      configure_prefix '3' ++ [ESC, '[', CLEAR_TO_END, 'J']) ∧
    (0 < n → n ≠ 2 → clear_display_bytes n =
      configure_prefix '3' ++ [ESC, '[', CLEAR_ALL, 'K']) ∧
    (n ≤ 0 → clear_display_bytes n = []) := by
  refine ⟨fun h => ?_, fun h1 h2 => ?_, fun h => ?_⟩
  · subst h; rfl
  · rw [clear_display_bytes, if_pos h1, if_neg h2]
  · rw [clear_display_bytes, if_neg (by omega)]

/-- Witness for C7 (amended) at counts 2, 1 and 0. -/
theorem C7_clear_display_amended_witness :
    clear_display_bytes 2 =
      configure_prefix '3' ++ [ESC, '[', CLEAR_TO_END, 'J'] ∧
    clear_display_bytes 1 =
      configure_prefix '3' ++ [ESC, '[', CLEAR_ALL, 'K'] ∧
    clear_display_bytes 0 = [] :=
  ⟨(C7_clear_display_amended 2).1 rfl,
    (C7_clear_display_amended 1).2.1 (by norm_num) (by norm_num),
    (C7_clear_display_amended 0).2.2 le_rfl⟩

/-- **C8.** In every state where recording is on, consuming `'x'`
makes exactly the calls `clear_recording_status` then `clear_display`,
in that order (`clear_display` is called for every visible-channel
count, recorded in the action), and returns the loop-terminating
value 0. -/
theorem C8_exit_while_recording (now : ℤ) (di : DisplayInfo)
    (h : di.recording ≠ 0) :
    check_cmd now (CmdInput.byte 'x') di =
      (di, [DisplayAction.clearRecordingStatus,
        DisplayAction.clearDisplay di.channels_displaying], 0) := by
  simp [check_cmd, h]

/-- Witness for C8: recording on, zero channels visible. -/
theorem C8_exit_while_recording_witness :
    check_cmd 0 (CmdInput.byte 'x') ⟨1, 0, 0, 0, 0, 2, 0, 0, 8, 1, 0⟩ =
      (⟨1, 0, 0, 0, 0, 2, 0, 0, 8, 1, 0⟩,
        [DisplayAction.clearRecordingStatus, DisplayAction.clearDisplay 0],
        0) :=
  C8_exit_while_recording 0 ⟨1, 0, 0, 0, 0, 2, 0, 0, 8, 1, 0⟩ (by decide)

end JackMeter
